import Mathlib

/-!
Shallow embedding of `src/thumbor_carousel/__init__.py` (class `Filter`),
the image-carousel composition pipeline: acquisition/caching of image
bytes, aspect-preserving normalization (`stretch`), text-to-raster scale
search (`text`), horizontal compositing (`join`) and overflow annotation
(`add_more_text`, `carousel`).

Modelling conventions:
* An image engine is represented by its pixel size (`ImgSize`); canvases
  additionally record the list of pastes performed on them (`Canvas`),
  each paste being the x-offset (all pastes in the source use y = 0) and
  the size of the pasted image.  Colors and pixel contents do not enter
  any claim and are not modelled.
* Machine floats appearing in the source are modelled by their exact
  rational values: `int((w / h) * H)` truncates the exact quotient
  `w * H / h` (Nat floor division for nonnegative values), and
  `height // 1.5` is `⌊h / 1.5⌋ = ⌊2 * h / 3⌋` (`2 * h / 3` in Nat).
* The external collaborators are parameters: the loader is a function
  `String → FetchResult`, the optional validator `Option (String → Bool)`,
  the cv2 text measurement a function from the scale index (the source's
  `font_scale` is `0.1 * k` after `k` increments) to the measured width,
  and the engine byte decoder a function `List Nat → ImgSize`.
* The storage collaborator is an association list plus the `put_crypto`
  marker list; `AcqState` also logs, in order, the URLs passed to
  `storage.get` and to `loader.load`, so that "no lookup / no fetch was
  attempted" is expressible.
* Python exceptions become an `Outcome` value; side effects already
  performed when an exception is raised persist in the returned state,
  exactly as in the source.
-/

namespace Carousel

/-- Pixel size of one raster image (the engine's `size` tuple). -/
structure ImgSize where
  width : Nat
  height : Nat
deriving DecidableEq

/-- A generated canvas: its size and the pastes performed onto it, each
paste `(x, img)` at top-left offset `(x, 0)` (every `paste` call in the
source uses y-offset 0). -/
structure Canvas where
  width : Nat
  height : Nat
  pastes : List (Nat × ImgSize)
deriving DecidableEq

/-- Embeds `Filter.stretch` (lines 32–36):
`new_width = int((width / engine.size[1]) * height)`.  The float
expression is modelled by its exact rational value `width * height /
size.height`, and Python's `int` truncates, which for nonnegative values
is Nat floor division.  `engine.resize(new_width, height)` makes the new
size `(new_width, height)`. -/
def stretch (size : ImgSize) (height : Nat) : ImgSize :=
  { width := size.width * height / size.height, height := height }

/-- Modelled from the spec: the nearest-integer rounding of `num / den`
(half rounds away from zero) that §4.1 and §8 claim for the stretched
width.  Kept separate from `stretch`, which embeds the source. -/
def specRoundNearest (num den : Nat) : Nat :=
  (2 * num + den) / (2 * den)

/-- Embeds the stopping threshold `height // 1.5` of `Filter.text`
(line 61): `h / 1.5 = 2 * h / 3` exactly, and float floor division
truncates it, giving `2 * h / 3` in Nat division. -/
def textThreshold (height : Nat) : Nat := 2 * height / 3

/-- Embeds the `while True` scale search of `Filter.text` (lines 58–62):
from scale index `k` (the source's `font_scale` is `0.1 * k`), increment
first (`font_scale += 0.1`), measure, and stop at the first index whose
measured width reaches the threshold.  `fuel` bounds the unboundedly
looping `while True`; `none` means the loop did not stop within `fuel`
iterations. -/
def textSearchLoop (measure : Nat → Nat) (threshold : Nat) : Nat → Nat → Option Nat
  | 0, _ => none
  | fuel + 1, k =>
    if threshold ≤ measure (k + 1) then some (k + 1)
    else textSearchLoop measure threshold fuel (k + 1)

/-- The scale search of `Filter.text` started from `font_scale = 0`. -/
def textSearch (measure : Nat → Nat) (height : Nat) (fuel : Nat) : Option Nat :=
  textSearchLoop measure (textThreshold height) fuel 0

/-- Embeds `Filter.text` (lines 52–82): find the stopping scale, then the
returned raster is `width × height` (`numpy.zeros((height, width, 4))`)
and the measured width is returned alongside.  Text color and pixel
placement (`text_x`, `text_y`) do not enter any claim. -/
def text (measure : Nat → Nat) (height : Nat) (fuel : Nat) : Option (ImgSize × Nat) :=
  match textSearch measure height fuel with
  | none => none
  | some k => some (⟨measure k, height⟩, measure k)

/-- Embeds the width accumulation of `Filter.join` (lines 98–100):
`width += engine.size[0] + (spacing if idx < len(engines) - 1 else 0)`. -/
def joinWidth : List ImgSize → Nat → Nat
  | [], _ => 0
  | [a], _ => a.width
  | a :: b :: rest, s => a.width + s + joinWidth (b :: rest) s

/-- Embeds the paste loop of `Filter.join` (lines 105–108): paste at
`(offset_x, 0)`, then `offset_x += engine.size[0] + (spacing if idx <
len(engines) - 1 else 0)`. -/
def joinPastes : List ImgSize → Nat → Nat → List (Nat × ImgSize)
  | [], _, _ => []
  | [a], x, _ => [(x, a)]
  | a :: b :: rest, x, s => (x, a) :: joinPastes (b :: rest) (x + a.width + s) s

/-- Embeds `Filter.join` (lines 96–110): canvas of the accumulated width
and the first engine's height (`engines[0].size[1]`), with the engines
pasted left to right.  On `[]` the source raises `IndexError` at
`engines[0]`; `headD` supplies a default that no claim's hypotheses
reach. -/
def join (engines : List ImgSize) (spacing : Nat) : Canvas :=
  { width := joinWidth engines spacing,
    height := (engines.headD ⟨0, 0⟩).height,
    pastes := joinPastes engines 0 spacing }

/-- The cumulative x-offset of the `i`-th paste of `Filter.join`: the
widths of the earlier images plus one spacing per earlier image. -/
def joinOffset (engines : List ImgSize) (spacing i : Nat) : Nat :=
  ((engines.take i).map ImgSize.width).sum + spacing * i

/-- Embeds `Filter.add_more_text` (lines 84–94): render `f"+{count}"` at
the row height, allocate `(engine_width + text_width + spacing, height)`,
paste the carousel at `(0, 0)` and the text raster at
`(engine_width + spacing, 0)`.  Returns the extended canvas and the
rendered label; `none` when the text scale search does not stop. -/
def add_more_text (measure : String → Nat → Nat) (fuel : Nat) (engineSize : ImgSize)
    (count height spacing : Nat) : Option (Canvas × String) :=
  match text (measure ("+" ++ toString count)) height fuel with
  | none => none
  | some (textSize, more_text_width) =>
    some ({ width := engineSize.width + more_text_width + spacing,
            height := height,
            pastes := [(0, engineSize), (engineSize.width + spacing, textSize)] },
          "+" ++ toString count)

/-- Python `str.split(sep)` for a one-character separator: one part per
gap between separators, so the result always has at least one part
(`"".split(',') == [""]`). -/
def pySplit (sep : Char) : List Char → List (List Char)
  | [] => [[]]
  | c :: rest =>
    if c = sep then [] :: pySplit sep rest
    else
      match pySplit sep rest with
      | [] => [[c]]
      | p :: ps => (c :: p) :: ps

/-- The errors raised by `Filter.load_images`, one constructor per
`tornado.web.HTTPError` raise site (lines 117, 121, 138–141). -/
inductive CarouselError where
  | noImages
  | forbiddenSource
  | sourceLoad (message : String)
deriving DecidableEq

/-- The HTTP status code of each raise site: all three raise
`HTTPError(400, ...)`. -/
def CarouselError.status : CarouselError → Nat
  | .noImages => 400
  | .forbiddenSource => 400
  | .sourceLoad _ => 400

/-- The fields of `thumbor.loaders.LoaderResult` the source reads:
`successful`, `buffer`, `error`, `metadata`.  Bytes are `List Nat`. -/
structure LoaderResult where
  successful : Bool
  buffer : List Nat
  error : String
  metadata : String
deriving DecidableEq

/-- What `loader.load` returns: either raw bytes or a `LoaderResult`
(the source distinguishes the two with `isinstance`, lines 132, 143). -/
inductive FetchResult where
  | raw (buffer : List Nat)
  | res (r : LoaderResult)
deriving DecidableEq

/-- The test `isinstance(result, LoaderResult) and not result.successful`
(line 132). -/
def loaderFailed : FetchResult → Bool
  | .res r => !r.successful
  | .raw _ => false

/-- The bytes taken from the load result: `result.buffer if
isinstance(result, LoaderResult) else result` (lines 143–146). -/
def resultBuffer : FetchResult → List Nat
  | .res r => r.buffer
  | .raw b => b

/-- Python `str.format()` called with no arguments on a template without
braces returns the template verbatim (the `%s` markers are printf-style
and mean nothing to `format`). -/
def pyFormatNoArgs (s : String) : String := s

/-- The message of the bad-image `HTTPError` (lines 138–141):
`"bad image result error=%s metadata=%s".format()`. -/
def badImageResultMessage : String :=
  pyFormatNoArgs "bad image result error=%s metadata=%s"

/-- The storage collaborator: cached bytes per URL plus the
`put_crypto` fetched markers. -/
structure Storage where
  entries : List (String × List Nat)
  crypto : List String
deriving DecidableEq

/-- `storage.get(url)`: the cached bytes, or `none` for a miss. -/
def Storage.get (st : Storage) (url : String) : Option (List Nat) :=
  st.entries.lookup url

/-- `storage.put(url, buffer)`. -/
def Storage.put (st : Storage) (url : String) (buffer : List Nat) : Storage :=
  { st with entries := (url, buffer) :: st.entries }

/-- `storage.put_crypto(url)`: record the fetched marker. -/
def Storage.put_crypto (st : Storage) (url : String) : Storage :=
  { st with crypto := url :: st.crypto }

/-- The mutable state `Filter.load_images` threads: the storage, plus
logs (in call order) of the URLs passed to `storage.get` and to
`loader.load`, so that "no lookup / no fetch was attempted" is a
statement about the final state. -/
structure AcqState where
  storage : Storage
  looked : List String
  fetched : List String
deriving DecidableEq

/-- Embeds `Filter.validate` (lines 163–170): no `validate` attribute on
the loader (`validator = none`) means always valid; otherwise the
validator collaborator decides. -/
def validate (validator : Option (String → Bool)) (url : String) : Bool :=
  match validator with
  | none => true
  | some v => v url

/-- Result of a pipeline stage: the produced value, or the raised error. -/
inductive Outcome (α : Type) where
  | ok (val : α)
  | err (e : CarouselError)
deriving DecidableEq

/-- Embeds the per-URL loop of `Filter.load_images` (lines 119–151):
validate (raise 400 on failure), look up the cache (hit: use the cached
bytes, no fetch), otherwise fetch (raise on an unsuccessful
`LoaderResult`; on success `put` the bytes, `put_crypto` the marker, and
use the bytes).  An error returns the state as already mutated, exactly
as a raised exception leaves the storage in the source. -/
def load_images_loop (validator : Option (String → Bool)) (loader : String → FetchResult) :
    List String → AcqState → List (List Nat) → Outcome (List (List Nat)) × AcqState
  | [], st, images => (.ok images, st)
  | url :: rest, st, images =>
    if validate validator url then
      match st.storage.get url with
      | some buffer =>
        load_images_loop validator loader rest
          { st with looked := st.looked ++ [url] } (images ++ [buffer])
      | none =>
        if loaderFailed (loader url) then
          (.err (.sourceLoad badImageResultMessage),
           { st with looked := st.looked ++ [url], fetched := st.fetched ++ [url] })
        else
          load_images_loop validator loader rest
            { st with
                storage := (st.storage.put url (resultBuffer (loader url))).put_crypto url,
                looked := st.looked ++ [url],
                fetched := st.fetched ++ [url] }
            (images ++ [resultBuffer (loader url)])
    else (.err .forbiddenSource, st)

/-- Embeds `Filter.load_images` (lines 112–151) up to the byte list:
split the decoded payload on commas (base64 decoding is modelled by
taking the decoded payload directly), raise `HTTPError(400, "No images
provided")` when the list is empty, then run the per-URL loop. -/
def load_images (validator : Option (String → Bool)) (loader : String → FetchResult)
    (st : AcqState) (payload : List Char) : Outcome (List (List Nat)) × AcqState :=
  let urls := (pySplit ',' payload).map List.asString
  if urls.length ≤ 0 then (.err .noImages, st)
  else load_images_loop validator loader urls st []

/-- Embeds the engine-construction tail of `Filter.load_images` (lines
153–161): one engine per byte buffer, decoded by the external engine
(`decode`, abstracting `engine.load`; `enable_alpha` does not change the
size). -/
def load_engines (validator : Option (String → Bool)) (loader : String → FetchResult)
    (decode : List Nat → ImgSize) (st : AcqState) (payload : List Char) :
    Outcome (List ImgSize) × AcqState :=
  match load_images validator loader st payload with
  | (.ok images, st') => (.ok (images.map decode), st')
  | (.err e, st') => (.err e, st')

/-- The final composed image: plain composite, or composite plus the
rendered overflow label. -/
inductive CarouselImage where
  | plain (c : Canvas)
  | annotated (c : Canvas) (label : String)
deriving DecidableEq

/-- Result of `Filter.carousel`: the image, a raised error, or `diverge`
when the text scale search exhausts its fuel (the source's `while True`
would spin forever there). -/
inductive CarouselOut where
  | ok (img : CarouselImage)
  | err (e : CarouselError)
  | diverge
deriving DecidableEq

/-- Embeds `Filter.carousel` (lines 180–207): load the engines, stretch
each to `img_height`, join them with `img_spacing`, and if more engines
were supplied than `img_count`, extend with the `"+N"` overflow label,
`N = len(image_engines) - img_count`.  Colors are not modelled. -/
def carousel (validator : Option (String → Bool)) (loader : String → FetchResult)
    (measure : String → Nat → Nat) (fuel : Nat) (decode : List Nat → ImgSize)
    (st : AcqState) (payload : List Char)
    (img_count img_height img_spacing : Nat) : CarouselOut × AcqState :=
  match load_engines validator loader decode st payload with
  | (.err e, st') => (.err e, st')
  | (.ok image_engines, st') =>
    let stretched := image_engines.map (fun e => stretch e img_height)
    let carousel_engine := join stretched img_spacing
    if img_count < stretched.length then
      match add_more_text measure fuel ⟨carousel_engine.width, carousel_engine.height⟩
          (stretched.length - img_count) img_height img_spacing with
      | none => (.diverge, st')
      | some (c, label) => (.ok (.annotated c label), st')
    else (.ok (.plain carousel_engine), st')

/-- The empty acquisition state used by concrete evaluations. -/
def initState : AcqState :=
  { storage := { entries := [], crypto := [] }, looked := [], fetched := [] }

/-! ## Helper lemmas -/

theorem pySplit_ne_nil (sep : Char) : ∀ s : List Char, pySplit sep s ≠ [] := by
  intro s
  induction s with
  | nil => simp [pySplit]
  | cons c rest ih =>
    simp only [pySplit]
    split
    · simp
    · split
      · simp
      · simp

theorem textSearchLoop_some (m : Nat → Nat) (t : Nat) :
    ∀ fuel k k', textSearchLoop m t fuel k = some k' →
      k < k' ∧ t ≤ m k' ∧ ∀ j, k < j → j < k' → m j < t := by
  intro fuel
  induction fuel with
  | zero => intro k k' h; simp [textSearchLoop] at h
  | succ n ih =>
    intro k k' h
    simp only [textSearchLoop] at h
    by_cases hc : t ≤ m (k + 1)
    · rw [if_pos hc] at h
      obtain rfl : k + 1 = k' := by simpa using h
      exact ⟨Nat.lt_succ_self k, hc, fun j h1 h2 => by omega⟩
    · rw [if_neg hc] at h
      obtain ⟨h1, h2, h3⟩ := ih (k + 1) k' h
      refine ⟨by omega, h2, ?_⟩
      intro j hj1 hj2
      by_cases hj : j = k + 1
      · subst hj; exact Nat.lt_of_not_le hc
      · exact h3 j (by omega) hj2

theorem joinWidth_eq (s : Nat) : ∀ l : List ImgSize, l ≠ [] →
    joinWidth l s = (l.map ImgSize.width).sum + s * (l.length - 1) := by
  intro l
  induction l with
  | nil => intro h; exact absurd rfl h
  | cons a rest ih =>
    intro _
    cases rest with
    | nil => simp [joinWidth]
    | cons b t =>
      have ihr := ih (by simp)
      simp only [joinWidth, List.map_cons, List.sum_cons, List.length_cons] at ihr ⊢
      rw [ihr]
      have : s * (t.length + 1 + 1 - 1) = s * (t.length + 1 - 1) + s := by
        simp [Nat.mul_succ]
      omega

theorem joinPastes_length (s : Nat) : ∀ (l : List ImgSize) (x : Nat),
    (joinPastes l x s).length = l.length := by
  intro l
  induction l with
  | nil => intro x; simp [joinPastes]
  | cons a rest ih =>
    intro x
    cases rest with
    | nil => simp [joinPastes]
    | cons b t => simpa [joinPastes] using ih (x + a.width + s)

theorem joinPastes_getD (s : Nat) : ∀ (l : List ImgSize) (x i : Nat), i < l.length →
    (joinPastes l x s).getD i (0, ⟨0, 0⟩)
      = (x + joinOffset l s i, l.getD i ⟨0, 0⟩) := by
  intro l
  induction l with
  | nil => intro x i h; simp at h
  | cons a rest ih =>
    intro x i h
    cases rest with
    | nil =>
      obtain rfl : i = 0 := by simpa using Nat.lt_one_iff.mp (by simpa using h)
      simp [joinPastes, joinOffset]
    | cons b t =>
      cases i with
      | zero => simp [joinPastes, joinOffset]
      | succ i =>
        have ihr := ih (x + a.width + s) i (by simpa using h)
        simp only [joinPastes, List.getD_cons_succ]
        rw [ihr]
        have hoff : joinOffset (a :: b :: t) s (i + 1)
            = a.width + joinOffset (b :: t) s i + s := by
          simp only [joinOffset, List.take_succ_cons, List.map_cons, List.sum_cons,
            Nat.mul_succ]
          omega
        simp only [hoff, List.getD_cons_succ]
        have harith : x + a.width + s + joinOffset (b :: t) s i
            = x + (a.width + joinOffset (b :: t) s i + s) := by omega
        rw [harith]

theorem sum_take_le (l : List Nat) (k : Nat) : (l.take k).sum ≤ l.sum := by
  conv_rhs => rw [← List.take_append_drop k l]
  rw [List.sum_append]
  exact Nat.le_add_right _ _

theorem loop_ne_noImages (validator : Option (String → Bool)) (loader : String → FetchResult) :
    ∀ (urls : List String) (st : AcqState) (images : List (List Nat)),
      (load_images_loop validator loader urls st images).1 ≠ .err .noImages := by
  intro urls
  induction urls with
  | nil => intro st images; simp [load_images_loop]
  | cons url rest ih =>
    intro st images
    simp only [load_images_loop]
    split
    · split
      · exact ih _ _
      · split
        · simp
        · exact ih _ _
    · simp

theorem loop_ok_length (validator : Option (String → Bool)) (loader : String → FetchResult) :
    ∀ (urls : List String) (st : AcqState) (images out : List (List Nat)) (st' : AcqState),
      load_images_loop validator loader urls st images = (.ok out, st') →
      out.length = images.length + urls.length := by
  intro urls
  induction urls with
  | nil =>
    intro st images out st' h
    simp only [load_images_loop, Prod.mk.injEq] at h
    obtain ⟨h1, _⟩ := h
    obtain rfl : images = out := by simpa using h1
    simp
  | cons url rest ih =>
    intro st images out st' h
    simp only [load_images_loop] at h
    split at h
    · split at h
      · have := ih _ _ _ _ h
        simp at this
        simp only [List.length_cons]
        omega
      · split at h
        · simp at h
        · have := ih _ _ _ _ h
          simp at this
          simp only [List.length_cons]
          omega
    · simp at h

theorem loop_preserves_cache (validator : Option (String → Bool)) (loader : String → FetchResult) :
    ∀ (urls : List String) (st : AcqState) (images : List (List Nat)) (k : String)
      (b : List Nat), st.storage.get k = some b →
      ((load_images_loop validator loader urls st images).2).storage.get k = some b := by
  intro urls
  induction urls with
  | nil => intro st images k b h; simpa [load_images_loop] using h
  | cons url rest ih =>
    intro st images k b h
    simp only [load_images_loop]
    split
    · split
      · exact ih _ _ _ _ h
      · next hmiss =>
        split
        · simpa using h
        · apply ih
          have hk : k ≠ url := by
            intro he
            rw [he, hmiss] at h
            cases h
          show (((st.storage.put url _).put_crypto url).get k) = some b
          simp only [Storage.get, Storage.put, Storage.put_crypto, List.lookup]
          rw [show (k == url) = false from beq_eq_false_iff_ne.mpr hk]
          exact h
    · simpa using h

theorem loop_none_validator_ne_forbidden (loader : String → FetchResult) :
    ∀ (urls : List String) (st : AcqState) (images : List (List Nat)),
      (load_images_loop none loader urls st images).1 ≠ .err .forbiddenSource := by
  intro urls
  induction urls with
  | nil => intro st images; simp [load_images_loop]
  | cons url rest ih =>
    intro st images
    simp only [load_images_loop]
    split
    · split
      · exact ih _ _
      · split
        · simp
        · exact ih _ _
    · next hcond => simp [validate] at hcond

theorem loop_reject_step (v : String → Bool) (loader : String → FetchResult)
    (rest : List String) (st : AcqState) (images : List (List Nat)) (url : String)
    (hv : v url = false) :
    load_images_loop (some v) loader (url :: rest) st images
      = (.err .forbiddenSource, st) := by
  simp [load_images_loop, validate, hv]

theorem loop_all_hits (validator : Option (String → Bool)) (loader : String → FetchResult) :
    ∀ (urls : List String) (st : AcqState) (images : List (List Nat)),
      (∀ u ∈ urls, validate validator u = true) →
      (∀ u ∈ urls, (st.storage.get u).isSome) →
      ∃ st', load_images_loop validator loader urls st images
          = (.ok (images ++ urls.map fun u => (st.storage.get u).getD []), st')
        ∧ st'.storage = st.storage ∧ st'.fetched = st.fetched := by
  intro urls
  induction urls with
  | nil =>
    intro st images _ _
    exact ⟨st, by simp [load_images_loop], rfl, rfl⟩
  | cons url rest ih =>
    intro st images hv hc
    have hvu : validate validator url = true := hv url (by simp)
    obtain ⟨b, hb⟩ := Option.isSome_iff_exists.mp (hc url (by simp))
    have hrec := ih { st with looked := st.looked ++ [url] } (images ++ [b])
      (fun u hu => hv u (by simp [hu]))
      (fun u hu => hc u (by simp [hu]))
    obtain ⟨st', h1, h2, h3⟩ := hrec
    refine ⟨st', ?_, h2, h3⟩
    simp only [load_images_loop, hvu, if_true, hb]
    rw [h1]
    simp [hb]

theorem loop_hit_step (validator : Option (String → Bool)) (loader : String → FetchResult)
    (rest : List String) (st : AcqState) (images : List (List Nat)) (url : String)
    (b : List Nat) (hv : validate validator url = true) (hb : st.storage.get url = some b) :
    load_images_loop validator loader (url :: rest) st images
      = load_images_loop validator loader rest
          { st with looked := st.looked ++ [url] } (images ++ [b]) := by
  simp [load_images_loop, hv, hb]

theorem loop_fetch_success_step (validator : Option (String → Bool))
    (loader : String → FetchResult) (rest : List String) (st : AcqState)
    (images : List (List Nat)) (url : String)
    (hv : validate validator url = true) (hm : st.storage.get url = none)
    (hf : loaderFailed (loader url) = false) :
    ∃ st', load_images_loop validator loader (url :: rest) st images
        = load_images_loop validator loader rest st'
            (images ++ [resultBuffer (loader url)])
      ∧ st'.storage.get url = some (resultBuffer (loader url))
      ∧ url ∈ st'.storage.crypto
      ∧ st'.fetched = st.fetched ++ [url] := by
  refine ⟨{ st with
      storage := (st.storage.put url (resultBuffer (loader url))).put_crypto url,
      looked := st.looked ++ [url],
      fetched := st.fetched ++ [url] }, ?_, ?_, ?_, rfl⟩
  · simp [load_images_loop, hv, hm, hf]
  · simp [Storage.get, Storage.put, Storage.put_crypto, List.lookup]
  · simp [Storage.put, Storage.put_crypto]

theorem loop_fetch_failure_step (validator : Option (String → Bool))
    (loader : String → FetchResult) (rest : List String) (st : AcqState)
    (images : List (List Nat)) (url : String)
    (hv : validate validator url = true) (hm : st.storage.get url = none)
    (hf : loaderFailed (loader url) = true) :
    load_images_loop validator loader (url :: rest) st images
      = (.err (.sourceLoad badImageResultMessage),
         { st with looked := st.looked ++ [url], fetched := st.fetched ++ [url] })
    ∧ ((load_images_loop validator loader (url :: rest) st images).2).storage
        = st.storage := by
  constructor
  · simp [load_images_loop, hv, hm, hf]
  · simp [load_images_loop, hv, hm, hf]

/-! ## Claim theorems -/

/-- C1: the empty-list guard of `load_images` is dead code, so the claimed
`NoImagesError` before any fetch does not happen.  A payload decoding to the
empty string splits (Python `split(',')`) into `[""]`, one empty URL, so the
pipeline proceeds to validate, look up and fetch `""` (first conjunct runs the
code on that failing input: it fetches and returns one image); in general no
input at all can produce the `No images provided` error (second conjunct). -/
theorem noImages_guard_dead :
    ((load_images none (fun _ => .raw [7]) initState []).1 = .ok [[7]]
      ∧ (load_images none (fun _ => .raw [7]) initState []).2.fetched = [""]
      ∧ (load_images none (fun _ => .raw [7]) initState []).2.looked = [""])
    ∧ ∀ (validator : Option (String → Bool)) (loader : String → FetchResult)
        (st : AcqState) (payload : List Char),
        (load_images validator loader st payload).1 ≠ .err .noImages := by
  refine ⟨⟨by decide, by decide, by decide⟩, ?_⟩
  intro validator loader st payload
  simp only [load_images]
  rw [if_neg]
  · exact loop_ne_noImages _ _ _ _ _
  · have h := pySplit_ne_nil ',' payload
    have hpos : 0 < (pySplit ',' payload).length := List.length_pos.mpr h
    simp only [List.length_map]
    omega

/-- C2 (counterexample): for an image of size (5, 3) stretched to target
height 1, the code computes width `int((5 / 3) * 1) = 1`, but the claimed
nearest-integer rounding of `5 * 1 / 3` is 2. -/
theorem stretch_not_nearest_cex :
    (stretch ⟨5, 3⟩ 1).width = 1 ∧ specRoundNearest (5 * 1) 3 = 2
      ∧ (stretch ⟨5, 3⟩ 1).width ≠ specRoundNearest (5 * 1) 3 := by
  refine ⟨rfl, rfl, by decide⟩

/-- C2 (amended): for every image of size (w, h) with w, h ≥ 1 and target
height H ≥ 1, `stretch` outputs height exactly H and a width that is the
truncation (floor) of w * H / h, not the nearest-integer rounding: the
output width q satisfies h * q ≤ w * H < h * (q + 1). -/
theorem stretch_truncates (w h H : Nat) (hw : 1 ≤ w) (hh : 1 ≤ h) (hH : 1 ≤ H) :
    (stretch ⟨w, h⟩ H).height = H
    ∧ h * (stretch ⟨w, h⟩ H).width ≤ w * H
    ∧ w * H < h * ((stretch ⟨w, h⟩ H).width + 1) := by
  refine ⟨rfl, ?_, ?_⟩
  · show h * (w * H / h) ≤ w * H
    rw [Nat.mul_comm]
    exact Nat.div_mul_le_self _ _
  · show w * H < h * (w * H / h + 1)
    have hd := Nat.div_add_mod (w * H) h
    have hm : w * H % h < h := Nat.mod_lt _ (by omega)
    calc w * H = h * (w * H / h) + w * H % h := hd.symm
      _ < h * (w * H / h) + h := Nat.add_lt_add_left hm _
      _ = h * (w * H / h + 1) := (Nat.mul_succ h _).symm

/-- C2 (witness): the amended statement evaluated at (w, h, H) = (5, 3, 1). -/
theorem stretch_truncates_witness :
    (stretch ⟨5, 3⟩ 1).height = 1
    ∧ 3 * (stretch ⟨5, 3⟩ 1).width ≤ 5 * 1
    ∧ 5 * 1 < 3 * ((stretch ⟨5, 3⟩ 1).width + 1) :=
  stretch_truncates 5 3 1 (by decide) (by decide) (by decide)

/-- C3 (counterexample): with target height 4 and a text whose measured
width is 2 at every scale, the loop stops at the very first scale (width
2 meets the code's floored threshold `4 // 1.5 = 2`), yet 2 is strictly
below the claimed exact quotient `4 / 1.5`; so the code does not stop at
the first scale whose width reaches `h / 1.5`. -/
theorem text_scale_search_cex :
    textSearch (fun _ => 2) 4 10 = some 1 ∧ (2 : ℚ) < 4 / 1.5 :=
  ⟨rfl, by norm_num⟩

/-- C3 (amended): whenever the scale search of `text` stops, it has run at
least one iteration (the stopping index is ≥ 1, the source increments
`font_scale` before the first test), and it stops at the first scale whose
measured width reaches the floored threshold `⌊h / 1.5⌋` (the source
compares against `height // 1.5`), not the exact real quotient `h / 1.5`. -/
theorem text_scale_search_stops_at_floored_threshold (m : Nat → Nat)
    (h fuel k : Nat) (hs : textSearch m h fuel = some k) :
    1 ≤ k ∧ textThreshold h ≤ m k
    ∧ ∀ j, 1 ≤ j → j < k → m j < textThreshold h := by
  obtain ⟨h1, h2, h3⟩ := textSearchLoop_some m (textThreshold h) fuel 0 k hs
  exact ⟨h1, h2, fun j hj1 hj2 => h3 j (by omega) hj2⟩

/-- C3 (witness): the amended statement evaluated at height 3 with the
measure that returns the scale index: the search stops at index 2. -/
theorem text_scale_search_witness : 1 ≤ 2 ∧ textThreshold 3 ≤ 2 :=
  ⟨(text_scale_search_stops_at_floored_threshold (fun j => j) 3 5 2 rfl).1,
   (text_scale_search_stops_at_floored_threshold (fun j => j) 3 5 2 rfl).2.1⟩

/-- C4: for a URL whose fetch returns an unsuccessful `LoaderResult`, the
pipeline does abort the whole request with the source-load error, but —
because the source calls `"...".format()` with no arguments — the raised
message is the constant template `bad image result error=%s metadata=%s`,
with the upstream `error` and `metadata` not interpolated (first two
conjuncts: two different upstream errors produce the identical constant
message); the third conjunct runs the whole `carousel` on the failing
input: it aborts with that error and produces no partial image. -/
theorem sourceLoad_message_drops_diagnostics :
    (load_images none (fun _ => .res ⟨false, [], "boom", "meta"⟩) initState
        ['u']).1
      = .err (.sourceLoad "bad image result error=%s metadata=%s")
    ∧ (load_images none (fun _ => .res ⟨false, [], "other error", "other metadata"⟩)
        initState ['u']).1
      = .err (.sourceLoad "bad image result error=%s metadata=%s")
    ∧ (carousel none (fun _ => .res ⟨false, [], "boom", "meta"⟩) (fun _ k => k) 5
        (fun _ => ⟨4, 6⟩) initState ['u'] 1 3 1).1
      = .err (.sourceLoad "bad image result error=%s metadata=%s") := by
  refine ⟨by decide, by decide, by decide⟩

/-- C5: for a non-empty sequence of images of common height H, `join`
produces a canvas of width `sum of widths + spacing * (n - 1)` (so width
exactly `width_1` for n = 1) and height H, with exactly one paste per
image, in input order, the i-th at cumulative x-offset
`(widths of earlier images).sum + spacing * i` — a gap of `spacing`
after each image except the last. -/
theorem join_spec (l : List ImgSize) (s H : Nat) (hne : l ≠ [])
    (hH : ∀ sz ∈ l, sz.height = H) :
    (join l s).width = (l.map ImgSize.width).sum + s * (l.length - 1)
    ∧ (join l s).height = H
    ∧ (join l s).pastes.length = l.length
    ∧ ∀ i, i < l.length →
        (join l s).pastes.getD i (0, ⟨0, 0⟩)
          = (joinOffset l s i, l.getD i ⟨0, 0⟩) := by
  refine ⟨joinWidth_eq s l hne, ?_, joinPastes_length s l 0, ?_⟩
  · cases l with
    | nil => exact absurd rfl hne
    | cons a t => exact hH a (by simp)
  · intro i hi
    simpa using joinPastes_getD s l 0 i hi

/-- C5 (witness): `join` evaluated on two images of sizes (2, 3) and
(4, 3) with spacing 1. -/
theorem join_spec_witness :
    (join [⟨2, 3⟩, ⟨4, 3⟩] 1).width
        = ([(⟨2, 3⟩ : ImgSize), ⟨4, 3⟩].map ImgSize.width).sum
            + 1 * ([(⟨2, 3⟩ : ImgSize), ⟨4, 3⟩].length - 1)
    ∧ (join [⟨2, 3⟩, ⟨4, 3⟩] 1).height = 3
    ∧ (join [⟨2, 3⟩, ⟨4, 3⟩] 1).pastes.length
        = [(⟨2, 3⟩ : ImgSize), ⟨4, 3⟩].length
    ∧ ∀ i, i < [(⟨2, 3⟩ : ImgSize), ⟨4, 3⟩].length →
        (join [⟨2, 3⟩, ⟨4, 3⟩] 1).pastes.getD i (0, ⟨0, 0⟩)
          = (joinOffset [⟨2, 3⟩, ⟨4, 3⟩] 1 i,
             [(⟨2, 3⟩ : ImgSize), ⟨4, 3⟩].getD i ⟨0, 0⟩) :=
  join_spec [⟨2, 3⟩, ⟨4, 3⟩] 1 3 (by decide) (by decide)

/-- C6: the overflow glyph is appended iff the number of acquired engines
exceeds `img_count`.  With `n ≤ img_count` the output is the plain
composite unchanged; with `n > img_count` (and a terminating scale
search) the rendered label is `"+N"` with `N = n - img_count`, the
extended canvas has width `carouselWidth + textWidth + spacing` and the
row height, the carousel is pasted at x = 0 and the text raster at
x = carouselWidth + spacing. -/
theorem overflow_annotation_spec (validator : Option (String → Bool))
    (loader : String → FetchResult) (measure : String → Nat → Nat) (fuel : Nat)
    (decode : List Nat → ImgSize) (st : AcqState) (payload : List Char)
    (img_count img_height img_spacing : Nat) (engines : List ImgSize)
    (hok : (load_engines validator loader decode st payload).1 = .ok engines) :
    (engines.length ≤ img_count →
      (carousel validator loader measure fuel decode st payload
          img_count img_height img_spacing).1
        = .ok (.plain (join (engines.map fun e => stretch e img_height) img_spacing)))
    ∧ (img_count < engines.length →
      ∀ k, textSearch (measure ("+" ++ toString (engines.length - img_count)))
              img_height fuel = some k →
        (carousel validator loader measure fuel decode st payload
            img_count img_height img_spacing).1
          = .ok (.annotated
              { width := (join (engines.map fun e => stretch e img_height)
                    img_spacing).width
                  + measure ("+" ++ toString (engines.length - img_count)) k
                  + img_spacing,
                height := img_height,
                pastes := [(0,
                    ⟨(join (engines.map fun e => stretch e img_height)
                        img_spacing).width,
                     (join (engines.map fun e => stretch e img_height)
                        img_spacing).height⟩),
                  ((join (engines.map fun e => stretch e img_height)
                       img_spacing).width + img_spacing,
                   ⟨measure ("+" ++ toString (engines.length - img_count)) k,
                    img_height⟩)] }
              ("+" ++ toString (engines.length - img_count)))) := by
  rcases hle : load_engines validator loader decode st payload with ⟨o, st2⟩
  rw [hle] at hok
  replace hok : o = .ok engines := hok
  subst hok
  constructor
  · intro hcnt
    simp only [carousel, hle]
    rw [if_neg (by simpa [List.length_map] using Nat.not_lt.mpr hcnt)]
  · intro hcnt k hk
    simp only [carousel, hle]
    rw [if_pos (by simpa [List.length_map] using hcnt)]
    simp only [add_more_text, text, List.length_map, hk]

/-- C6 (witness): two acquired images, `img_count = 1`, height 3,
spacing 1, with a measure reaching the threshold at scale index 2: the
output is the annotated composite of width 5 + 2 + 1 = 8 with the
carousel pasted at 0 and the "+1" raster at 5 + 1 = 6. -/
theorem overflow_annotation_witness :
    (carousel none (fun _ => .raw [7]) (fun _ k => k) 5 (fun _ => ⟨4, 6⟩)
        initState ['a', ',', 'b'] 1 3 1).1
      = .ok (.annotated ⟨8, 3, [(0, ⟨5, 3⟩), (6, ⟨2, 3⟩)]⟩ "+1") := by
  exact (overflow_annotation_spec none (fun _ => .raw [7]) (fun _ k => k) 5
    (fun _ => ⟨4, 6⟩) initState ['a', ',', 'b'] 1 3 1 [⟨4, 6⟩, ⟨4, 6⟩]
    (by decide)).2 (by decide) 2 (by decide)

/-- C7: the cache contract of the per-URL loop.  (1) A URL whose bytes
are cached uses those bytes and performs no fetch and no cache write —
the loop continues with only the lookup logged and the cached bytes
appended.  (2) When every URL hits the cache, the whole run returns the
cached bytes in order with storage and fetch log unchanged.  (3) On a
cache miss whose fetch succeeds, the loop continues in a state in which
the fetched bytes are cached under the URL and the fetched-marker
recorded, with the bytes appended to the images in use — the cache write
happens before the bytes are used.  (4) Every cache entry present at any
point is still present in the final state of any run, whatever its
outcome — earlier successful fetches stay cached when a later URL fails.
(5) A failed fetch raises the source-load error and caches nothing: the
returned storage is exactly the storage before the URL. -/
theorem cache_contract :
    (∀ (validator : Option (String → Bool)) (loader : String → FetchResult)
        (rest : List String) (st : AcqState) (images : List (List Nat))
        (url : String) (b : List Nat),
        validate validator url = true → st.storage.get url = some b →
        load_images_loop validator loader (url :: rest) st images
          = load_images_loop validator loader rest
              { st with looked := st.looked ++ [url] } (images ++ [b]))
    ∧ (∀ (validator : Option (String → Bool)) (loader : String → FetchResult)
        (urls : List String) (st : AcqState) (images : List (List Nat)),
        (∀ u ∈ urls, validate validator u = true) →
        (∀ u ∈ urls, (st.storage.get u).isSome) →
        ∃ st', load_images_loop validator loader urls st images
            = (.ok (images ++ urls.map fun u => (st.storage.get u).getD []), st')
          ∧ st'.storage = st.storage ∧ st'.fetched = st.fetched)
    ∧ (∀ (validator : Option (String → Bool)) (loader : String → FetchResult)
        (rest : List String) (st : AcqState) (images : List (List Nat))
        (url : String),
        validate validator url = true → st.storage.get url = none →
        loaderFailed (loader url) = false →
        ∃ st', load_images_loop validator loader (url :: rest) st images
            = load_images_loop validator loader rest st'
                (images ++ [resultBuffer (loader url)])
          ∧ st'.storage.get url = some (resultBuffer (loader url))
          ∧ url ∈ st'.storage.crypto
          ∧ st'.fetched = st.fetched ++ [url])
    ∧ (∀ (validator : Option (String → Bool)) (loader : String → FetchResult)
        (urls : List String) (st : AcqState) (images : List (List Nat))
        (k : String) (b : List Nat),
        st.storage.get k = some b →
        ((load_images_loop validator loader urls st images).2).storage.get k
          = some b)
    ∧ (∀ (validator : Option (String → Bool)) (loader : String → FetchResult)
        (rest : List String) (st : AcqState) (images : List (List Nat))
        (url : String),
        validate validator url = true → st.storage.get url = none →
        loaderFailed (loader url) = true →
        load_images_loop validator loader (url :: rest) st images
            = (.err (.sourceLoad badImageResultMessage),
               { st with looked := st.looked ++ [url],
                         fetched := st.fetched ++ [url] })
          ∧ ((load_images_loop validator loader (url :: rest) st images).2).storage
              = st.storage) :=
  ⟨fun validator loader => loop_hit_step validator loader,
   fun validator loader => loop_all_hits validator loader,
   fun validator loader => loop_fetch_success_step validator loader,
   fun validator loader => loop_preserves_cache validator loader,
   fun validator loader => loop_fetch_failure_step validator loader⟩

/-- C8: the validation contract.  (1) With no validator configured every
URL is treated as valid, and (2) the pipeline can then never raise the
forbidden-source error.  (3) When the configured validator rejects a URL,
the loop stops at that URL with the forbidden-source error and the state
exactly as it was — in particular neither a cache lookup nor a fetch is
logged for that URL.  (4) The forbidden-source error carries HTTP status
400. -/
theorem validator_contract :
    (∀ url : String, validate none url = true)
    ∧ (∀ (loader : String → FetchResult) (urls : List String) (st : AcqState)
        (images : List (List Nat)),
        (load_images_loop none loader urls st images).1 ≠ .err .forbiddenSource)
    ∧ (∀ (v : String → Bool) (loader : String → FetchResult) (rest : List String)
        (st : AcqState) (images : List (List Nat)) (url : String),
        v url = false →
        load_images_loop (some v) loader (url :: rest) st images
          = (.err .forbiddenSource, st))
    ∧ CarouselError.forbiddenSource.status = 400 :=
  ⟨fun _ => rfl,
   fun loader => loop_none_validator_ne_forbidden loader,
   fun v loader => loop_reject_step v loader,
   rfl⟩

/-- C9: when acquisition succeeds, the engine list handed to the
compositor has exactly one engine per decoded URL (one per part of the
comma-split payload), and after the normalization step every engine in
that list has height exactly `img_height`. -/
theorem handles_match_urls (validator : Option (String → Bool))
    (loader : String → FetchResult) (st : AcqState) (payload : List Char)
    (images : List (List Nat)) (decode : List Nat → ImgSize) (img_height : Nat)
    (hok : (load_images validator loader st payload).1 = .ok images) :
    (images.map decode).length = (pySplit ',' payload).length
    ∧ ∀ e ∈ (images.map decode).map (fun sz => stretch sz img_height),
        e.height = img_height := by
  constructor
  · simp only [load_images] at hok
    have hpos : ¬ (((pySplit ',' payload).map List.asString).length ≤ 0) := by
      have h := pySplit_ne_nil ',' payload
      have : 0 < (pySplit ',' payload).length := List.length_pos.mpr h
      simp only [List.length_map]
      omega
    rw [if_neg hpos] at hok
    rcases hp : load_images_loop validator loader
        ((pySplit ',' payload).map List.asString) st [] with ⟨o, st2⟩
    rw [hp] at hok
    replace hok : o = .ok images := hok
    subst hok
    have hlen := loop_ok_length validator loader _ st [] images st2 hp
    simp only [List.length_map, List.length_nil, Nat.zero_add] at hlen
    simp only [List.length_map]
    omega
  · intro e he
    obtain ⟨sz, _, rfl⟩ := List.mem_map.mp he
    rfl

/-- C9 (witness): a two-URL payload acquired successfully yields two
engines, one per URL. -/
theorem handles_match_urls_witness :
    (([[7], [7]] : List (List Nat)).map (fun _ => (⟨4, 6⟩ : ImgSize))).length
      = (pySplit ',' ['a', ',', 'b']).length :=
  (handles_match_urls none (fun _ => .raw [7]) initState ['a', ',', 'b']
    [[7], [7]] (fun _ => ⟨4, 6⟩) 3 (by decide)).1

/-- C10: every paste of `join` stays within the canvas it allocates: for
each image at index i, its cumulative x-offset plus its width is at most
the canvas width, and its height equals the canvas height, so the paste
precondition is never violated. -/
theorem join_pastes_in_bounds (l : List ImgSize) (s H : Nat) (hne : l ≠ [])
    (hH : ∀ sz ∈ l, sz.height = H) :
    ∀ i, i < l.length →
      ((join l s).pastes.getD i (0, ⟨0, 0⟩)).1
          + ((join l s).pastes.getD i (0, ⟨0, 0⟩)).2.width ≤ (join l s).width
      ∧ ((join l s).pastes.getD i (0, ⟨0, 0⟩)).2.height = (join l s).height := by
  intro i hi
  have hp := joinPastes_getD s l 0 i hi
  have hw := joinWidth_eq s l hne
  have hgd : l.getD i ⟨0, 0⟩ = l[i] := List.getD_eq_getElem l ⟨0, 0⟩ hi
  constructor
  · show ((joinPastes l 0 s).getD i (0, ⟨0, 0⟩)).1
        + ((joinPastes l 0 s).getD i (0, ⟨0, 0⟩)).2.width ≤ joinWidth l s
    rw [hp, hw]
    have htake : (l.take (i + 1)).map ImgSize.width
        = (l.take i).map ImgSize.width ++ [l[i].width] := by
      rw [List.take_succ, List.getElem?_eq_getElem hi]
      simp only [Option.toList_some, List.map_append, List.map_cons, List.map_nil]
    have h1 : ((l.take (i + 1)).map ImgSize.width).sum
        = ((l.take i).map ImgSize.width).sum + l[i].width := by
      rw [htake, List.sum_append]
      simp
    have h2 : ((l.take (i + 1)).map ImgSize.width).sum
        ≤ (l.map ImgSize.width).sum := by
      rw [List.map_take]
      exact sum_take_le (l.map ImgSize.width) (i + 1)
    have h3 : s * i ≤ s * (l.length - 1) :=
      Nat.mul_le_mul_left s (by omega)
    simp only [joinOffset, hgd]
    omega
  · show ((joinPastes l 0 s).getD i (0, ⟨0, 0⟩)).2.height
        = (l.headD ⟨0, 0⟩).height
    rw [hp]
    have hmem : l[i] ∈ l := List.getElem_mem hi
    have hhead : (l.headD ⟨0, 0⟩).height = H := by
      cases l with
      | nil => exact absurd rfl hne
      | cons a t => exact hH a (by simp)
    simp only [hgd]
    rw [hH l[i] hmem, hhead]

/-- C10 (witness): the bounds evaluated on two images of sizes (2, 3) and
(4, 3) with spacing 1 at index 1. -/
theorem join_pastes_in_bounds_witness :
    ((join [⟨2, 3⟩, ⟨4, 3⟩] 1).pastes.getD 1 (0, ⟨0, 0⟩)).1
        + ((join [⟨2, 3⟩, ⟨4, 3⟩] 1).pastes.getD 1 (0, ⟨0, 0⟩)).2.width
        ≤ (join [⟨2, 3⟩, ⟨4, 3⟩] 1).width
    ∧ ((join [⟨2, 3⟩, ⟨4, 3⟩] 1).pastes.getD 1 (0, ⟨0, 0⟩)).2.height
        = (join [⟨2, 3⟩, ⟨4, 3⟩] 1).height :=
  join_pastes_in_bounds [⟨2, 3⟩, ⟨4, 3⟩] 1 3 (by decide) (by decide) 1 (by decide)

end Carousel
